import Mathlib

/-!
Verification of the QA-check core of pandemic-tracking/ptc-server
(src/app/api/bi_checks.py, function make_output_string and its helper p2f).

Shallow embedding conventions:
* a pandas cell is a `Value`: `missing` (NaN/None), `num q` (a float, modelled
  as an exact rational), or `str s` (a raw string);
* a DataFrame is a `DF`: an ordered association list of named columns, each a
  list of cell values (rows are positional, aligned across columns);
* Python exceptions are an explicit `BIError`; code that can raise is embedded
  in `Except BIError`;
* the output string `out` of make_output_string is modelled as the list of the
  lines appended to it (each `out += '...\n'` contributes one line).
-/

set_option maxRecDepth 100000

deriving instance DecidableEq for Except

namespace BIChecks

/-- Cell value of a dataframe: NaN/None, a float (modelled exactly as a
rational), or a raw string. -/
inductive Value where
  | missing : Value
  | num : ℚ → Value
  | str : String → Value
deriving DecidableEq, Repr

/-- A dataframe: an ordered list of named columns.  Rows are positional: the
i-th row consists of the i-th entry of every column. -/
structure DF where
  cols : List (String × List Value)
deriving DecidableEq, Repr

/-- Column names in order (`df.columns`). -/
def DF.colNames (df : DF) : List String := df.cols.map Prod.fst

/-- Association-list lookup of a column by name (first occurrence). -/
def lookupCol (c : String) : List (String × List Value) → Option (List Value)
  | [] => none
  | p :: ps => if p.1 = c then some p.2 else lookupCol c ps

/-- Values of the column named `c`, if present (`df[c]`). -/
def DF.get? (df : DF) (c : String) : Option (List Value) := lookupCol c df.cols

/-- Membership test for a column name (`col in dict(df.dtypes)`). -/
def DF.hasCol (df : DF) (c : String) : Bool := decide (c ∈ df.colNames)

/-- Python exceptions raised by the script, named after the failure modes of
the spec's error taxonomy.  `configurationError c` is the ValueError raised by
`list(new_df.columns).index(c)` when `c` is absent; `dataFormatError s` is the
ValueError of `pd.to_numeric` on the unparseable token `s`; `indexError` is
the IndexError of `.iloc[0]` on an empty selection; `attributeError` is the
AttributeError of `df.Abbr` when the column is absent; `typeError` is the
TypeError/ValueError of comparing or %-formatting a value of the wrong type. -/
inductive BIError where
  | configurationError : String → BIError
  | dataFormatError : String → BIError
  | indexError : BIError
  | attributeError : BIError
  | typeError : BIError
deriving DecidableEq, Repr

/-- Python `list.index` returning an `Option` instead of raising ValueError. -/
def listIdx? (l : List String) (c : String) : Option Nat :=
  match l with
  | [] => none
  | x :: xs => if x = c then some 0 else (listIdx? xs c).map (· + 1)

/-- Substring test on lists of characters: does `needle` occur inside `hay`?
Embeds the Python expression `needle in hay` on strings. -/
def listStartsWith : List Char → List Char → Bool
  | [], _ => true
  | _ :: _, [] => false
  | a :: as, b :: bs => a == b && listStartsWith as bs

/-- Substring occurrence anywhere in a character list. -/
def listOccurs (needle : List Char) : List Char → Bool
  | [] => listStartsWith needle []
  | c :: cs => listStartsWith needle (c :: cs) || listOccurs needle cs

/-- Python `needle in hay` for strings (substring containment). -/
def strContainsSub (hay needle : String) : Bool :=
  listOccurs needle.data hay.data

/-- Replacement of every occurrence of the single character `a` by the string
`rep`, the character-list form of Python `s.replace(a, rep)` for the
one-character patterns used by the script (",", "X", "%"). -/
def replaceChar (a : Char) (rep : List Char) : List Char → List Char
  | [] => []
  | c :: cs => if c = a then rep ++ replaceChar a rep cs else c :: replaceChar a rep cs

/-- Python `s.startswith(pre)`. -/
def strStartsWith (s pre : String) : Bool := listStartsWith pre.data s.data

/-- Splitting a character list on a separator character, as Python
`s.split(sep)` / the field structure of a CSV line. -/
def splitOnChar (sep : Char) : List Char → List (List Char)
  | [] => [[]]
  | c :: cs =>
    let r := splitOnChar sep cs
    if c = sep then [] :: r
    else
      match r with
      | [] => [[c]]
      | f :: fs => (c :: f) :: fs

/-- Whitespace stripping from both ends, Python `s.strip()` as performed by
`float` on its argument. -/
def trimData (l : List Char) : List Char :=
  ((l.dropWhile Char.isWhitespace).reverse.dropWhile Char.isWhitespace).reverse

/-- Numeric value of a digit list. -/
def natOfDigitsAux (cs : List Char) : Nat :=
  cs.foldl (fun a c => 10 * a + (c.toNat - 48)) 0

/-- Unsigned decimal literal: digits with an optional single point, at least
one digit overall (as accepted by Python `float` / `pd.to_numeric` for the
plain decimal forms appearing in this data). -/
def parseUnsignedDec (cs : List Char) : Option ℚ :=
  match splitOnChar '.' cs with
  | [a] =>
    if a.isEmpty then none
    else if a.all Char.isDigit then some (natOfDigitsAux a) else none
  | [a, b] =>
    if a.isEmpty && b.isEmpty then none
    else if a.all Char.isDigit && b.all Char.isDigit then
      some ((natOfDigitsAux a : ℚ) + (natOfDigitsAux b : ℚ) / ((10 : ℚ) ^ b.length))
    else none
  | _ => none

/-- Decimal number parser modelling Python `float(s)` / `pd.to_numeric` on the
plain decimal strings of this data set: optional surrounding whitespace,
optional sign, digits with an optional decimal point.  Anything else fails. -/
def parseFloat (s : String) : Option ℚ :=
  match trimData s.data with
  | [] => none
  | c :: rest =>
    if c = '-' then (parseUnsignedDec rest).map (fun q => -q)
    else if c = '+' then parseUnsignedDec rest
    else parseUnsignedDec (c :: rest)

/-- Pandas dtype check `dict(df.dtypes)[col] == object`: a column holds dtype
`object` exactly when some cell is a (string) Python object; an all
numeric/NaN column has a float dtype. -/
def dtypeIsObject (vs : List Value) : Bool :=
  vs.any fun v => match v with | .str _ => true | _ => false

/-- Pandas `Series.str.replace(a, rep)` on one cell for a single-character
pattern: string cells get every occurrence of `a` replaced by `rep`;
non-string cells (floats and NaN) become NaN. -/
def strRepl (a : Char) (rep : List Char) (v : Value) : Value :=
  match v with
  | .str s => .str (String.mk (replaceChar a rep s.data))
  | _ => .missing

/-- Pandas `pd.to_numeric` on one cell: strings are parsed (raising ValueError
on failure), numbers and NaN pass through. -/
def toNumericCell : Value → Except BIError Value
  | .str s =>
    match parseFloat s with
    | some q => pure (.num q)
    | none => .error (.dataFormatError s)
  | v => pure v

/-- Pandas `pd.to_numeric` on a whole column. -/
def toNumericList : List Value → Except BIError (List Value)
  | [] => pure []
  | v :: vs => do
    let w ← toNumericCell v
    let ws ← toNumericList vs
    pure (w :: ws)

/-- Numeric-metric column normalization, bi_checks.py lines 66-75: when the
column has object dtype, strip commas, replace every "X" by "1", and parse;
otherwise the column is left untouched. -/
def normNumericCol (vs : List Value) : Except BIError (List Value) :=
  if dtypeIsObject vs then
    toNumericList ((vs.map (strRepl ',' [])).map (strRepl 'X' ['1']))
  else pure vs

/-- Python `s.strip('%')`: remove every leading and every trailing '%'. -/
def stripPercentData (l : List Char) : List Char :=
  ((l.dropWhile (fun c => c == '%')).reverse.dropWhile (fun c => c == '%')).reverse

/-- Python `s.strip('%')` on strings. -/
def stripPercent (s : String) : String := String.mk (stripPercentData s.data)

/-- Per-value percent conversion `p2f`, bi_checks.py lines 77-84: missing
stays missing; a string has '%' stripped from both ends, is parsed and divided
by 100; any failure (bad format, or a non-string value, whose `.strip` raises
AttributeError inside the try block) yields missing. -/
def p2f (x : Value) : Value :=
  match x with
  | .missing => .missing
  | .num _ => .missing
  | .str s =>
    match parseFloat (stripPercent s) with
    | some q => .num (q / 100)
    | none => .missing

/-- Percent-metric column normalization, bi_checks.py lines 86-92: when the
column has object dtype, replace "X" by "1" cell-wise first; then apply `p2f`
to every cell unconditionally. -/
def normPercentCol (vs : List Value) : List Value :=
  (if dtypeIsObject vs then vs.map (strRepl 'X' ['1']) else vs).map p2f

/-- One pass of `df[col] = f(df[col])` over an association list: every entry
named `c` has `f` applied to its values (effectful version). -/
def updateEntriesE (f : List Value → Except BIError (List Value)) (c : String) :
    List (String × List Value) → Except BIError (List (String × List Value))
  | [] => pure []
  | p :: ps =>
    Bind.bind (if p.1 = c then f p.2 else pure p.2) fun v =>
      Bind.bind (updateEntriesE f c ps) fun rest => pure ((p.1, v) :: rest)

/-- Effectful column update guarded by presence, as in the loops
`if col not in dict(df.dtypes): continue` of bi_checks.py lines 69-70. -/
def updateColE (f : List Value → Except BIError (List Value)) (c : String) (df : DF) :
    Except BIError DF :=
  if df.hasCol c then (updateEntriesE f c df.cols).map DF.mk else pure df

/-- Pure version of `updateEntriesE` for the total percent conversion. -/
def updateEntries (f : List Value → List Value) (c : String) :
    List (String × List Value) → List (String × List Value)
  | [] => []
  | p :: ps => (p.1, if p.1 = c then f p.2 else p.2) :: updateEntries f c ps

/-- Pure column update guarded by presence (bi_checks.py lines 88-89). -/
def updateCol (f : List Value → List Value) (c : String) (df : DF) : DF :=
  if df.hasCol c then ⟨updateEntries f c df.cols⟩ else df

/-- Loop `for col in numeric_cols: for df in [new_df, existing_df]` of
bi_checks.py lines 66-75. -/
def numericNormLoop : List String → DF × DF → Except BIError (DF × DF)
  | [], p => pure p
  | c :: cs, p => do
    let a ← updateColE normNumericCol c p.1
    let b ← updateColE normNumericCol c p.2
    numericNormLoop cs (a, b)

/-- Loop `for col in percent_cols: for df in [new_df, existing_df]` of
bi_checks.py lines 86-92. -/
def percentNormLoop : List String → DF × DF → DF × DF
  | [], p => p
  | c :: cs, p =>
    percentNormLoop cs (updateCol normPercentCol c p.1, updateCol normPercentCol c p.2)

/-- Configured boundary column names (bi_checks.py lines 54-55). -/
def first_numeric_colname : String := "BI cases"

/-- Configured last boundary column name. -/
def last_numeric_colname : String := "Total Individuals not fully vaccinated"

/-- Classification and normalization phase of make_output_string,
bi_checks.py lines 54-92: locate the boundary columns in the new dataset
(raising if absent), split the inclusive span into percent and plain numeric
columns by the substring test `'percent' in x`, then run the numeric and
percent conversion loops over both dataframes.  Returns the two normalized
dataframes together with the numeric and percent column lists. -/
def classify_and_normalize (new_df existing_df : DF) :
    Except BIError (DF × DF × List String × List String) := do
  let first_numeric_col ←
    match listIdx? new_df.colNames first_numeric_colname with
    | some i => pure i
    | none => .error (.configurationError first_numeric_colname)
  let last_numeric_col ←
    match listIdx? new_df.colNames last_numeric_colname with
    | some i => pure i
    | none => .error (.configurationError last_numeric_colname)
  let possible_numeric_cols :=
    (new_df.colNames.drop first_numeric_col).take (last_numeric_col + 1 - first_numeric_col)
  let percent_cols := possible_numeric_cols.filter (fun x => strContainsSub x "percent")
  let numeric_cols := possible_numeric_cols.filter (fun x => !strContainsSub x "percent")
  let p ← numericNormLoop numeric_cols (new_df, existing_df)
  let p2 := percentNormLoop percent_cols p
  pure (p2.1, p2.2, numeric_cols, percent_cols)

/-- Python truth of `pd.isnull(v)`. -/
def valIsNull : Value → Bool
  | .missing => true
  | _ => false

/-- Pandas element-wise `==` used by the row selections
`df.loc[df.Abbr == state]`: NaN compares unequal to everything (itself
included) and values of different types compare unequal. -/
def valEq : Value → Value → Bool
  | .num a, .num b => a == b
  | .str a, .str b => a == b
  | _, _ => false

/-- Python `a < b` on cell values: numbers and strings compare within their
own type (strings lexicographically); comparisons involving NaN are false;
comparing a number with a string raises TypeError. -/
def valLtE : Value → Value → Except BIError Bool
  | .num a, .num b => pure (decide (a < b))
  | .str a, .str b => pure (decide (a < b))
  | .missing, .num _ => pure false
  | .num _, .missing => pure false
  | .missing, .missing => pure false
  | _, _ => .error .typeError

/-- Python `a > b` on cell values, same conventions as `valLtE`. -/
def valGtE : Value → Value → Except BIError Bool
  | .num a, .num b => pure (decide (b < a))
  | .str a, .str b => pure (decide (b < a))
  | .missing, .num _ => pure false
  | .num _, .missing => pure false
  | .missing, .missing => pure false
  | _, _ => .error .typeError

/-- Python `2 * v`: doubles a number, duplicates a string, keeps NaN. -/
def valMul2 : Value → Value
  | .num q => .num (2 * q)
  | .str s => .str (s ++ s)
  | .missing => .missing

/-- Python `'%s' % v`.  State identifiers in this data are strings; the
rendering of a numeric or missing value here is an approximation of Python's
`str` and is never reached in the proved theorems. -/
def fmtS : Value → String
  | .str s => s
  | .num q => toString q
  | .missing => "nan"

/-- Integer conversion used by `'%d' % v` on a float: truncation toward
zero. -/
def ratTrunc (q : ℚ) : Int := if q < 0 then ⌈q⌉ else ⌊q⌋

/-- Rendering of `'%d' % q`. -/
def fmtInt (q : ℚ) : String := toString (ratTrunc q)

/-- Python `'%d' % v` on a cell: formatting a non-number raises. -/
def fmtIntE : Value → Except BIError String
  | .num q => pure (fmtInt q)
  | _ => .error .typeError

/-- Rendering of `'%.2f' % q`: two decimal places.  Exact rationals round
half-up here, an approximation of the binary-double rounding of Python's
`%.2f` that agrees away from exact midpoints; no proved theorem depends on a
midpoint. -/
def fmtF2 (q : ℚ) : String :=
  let r : Int := ⌊q * 100 + 1 / 2⌋
  let a := r.natAbs
  (if r < 0 then "-" else "") ++ toString (a / 100) ++ "." ++
    (if a % 100 < 10 then "0" else "") ++ toString (a % 100)

/-- Python `'%.2f' % v` on a cell: formatting a non-number raises. -/
def fmtF2E : Value → Except BIError String
  | .num q => pure (fmtF2 q)
  | _ => .error .typeError

/-- `df.loc[df.Abbr == key][c].iloc[0]`: the entry of the value column `vs`
at the first row whose key column `ks` entry equals `key` (pandas `==`
semantics), or `none` — the IndexError case — when no row matches. -/
def firstMatch : List Value → List Value → Value → Option Value
  | k :: ks, v :: vs, key => if valEq k key then some v else firstMatch ks vs key
  | _, _, _ => none

/-- Columns exempted from the cumulative-decrease alert
(bi_checks.py line 155). -/
def whitelist_cols : List String := ["Total Individuals not fully vaccinated"]

/-- Numeric-metric checks for one (state, column) pair, bi_checks.py lines
136-163, given the already-extracted old and new values.  `stateV` is the
re-bound `state = old_row.Abbr.iloc[0]`; `newAbbr?` is
`new_row.Abbr.iloc[0]`, evaluated only if the >2x alert fires (mirroring the
lazy evaluation in the Python format expression). -/
def numericPairLines (stateV : Value) (newAbbr? : Option Value) (col : String)
    (old_value new_value : Value) : Except BIError (List String) := do
  let l1 ←
    if valIsNull new_value && !valIsNull old_value then do
      let d ← fmtIntE old_value
      pure [fmtS stateV ++ ",Lost metric," ++ col ++ ",Old value " ++ d]
    else pure []
  let l2 ←
    if !valIsNull new_value && valIsNull old_value then do
      let d ← fmtIntE new_value
      pure [fmtS stateV ++ ",New metric," ++ col ++ ",New value " ++ d]
    else pure []
  if valIsNull new_value || valIsNull old_value then pure (l1 ++ l2)
  else do
    let lt ← valLtE new_value old_value
    let l3 ←
      if lt && !decide (col ∈ whitelist_cols) then do
        let d1 ← fmtIntE old_value
        let d2 ← fmtIntE new_value
        pure [fmtS stateV ++ ",Cumulative decrease," ++ col ++ "," ++ d1 ++ " -> " ++ d2]
      else pure []
    let gt ← valGtE new_value (valMul2 old_value)
    let l4 ←
      if gt then do
        let a ← match newAbbr? with
          | some a => pure a
          | none => .error .indexError
        let d1 ← fmtIntE old_value
        let d2 ← fmtIntE new_value
        pure [fmtS a ++ ",>2x increase," ++ col ++ "," ++ d1 ++ " -> " ++ d2]
      else pure []
    pure (l1 ++ l2 ++ l3 ++ l4)

/-- Percent-metric checks for one (state, column) pair, bi_checks.py lines
166-178: presence checks only, two-decimal formatting, no magnitude
comparisons. -/
def percentPairLines (stateV : Value) (col : String) (old_value new_value : Value) :
    Except BIError (List String) := do
  let l1 ←
    if valIsNull new_value && !valIsNull old_value then do
      let d ← fmtF2E old_value
      pure [fmtS stateV ++ ",Lost metric," ++ col ++ ",Old value " ++ d]
    else pure []
  let l2 ←
    if !valIsNull new_value && valIsNull old_value then do
      let d ← fmtF2E new_value
      pure [fmtS stateV ++ ",New metric," ++ col ++ ",New value " ++ d]
    else pure []
  pure (l1 ++ l2)

/-- Loop over metric columns for one state: skip columns not present in both
dataframes (`if not (col in old_row and col in new_row): continue`), extract
`old_row[col].iloc[0]` and `new_row[col].iloc[0]` (IndexError when the
selection is empty), and run the per-pair check. -/
def metricColsLoop (ndf edf : DF) (newAbbr exAbbr : List Value) (stateKey : Value)
    (pair : String → Value → Value → Except BIError (List String)) :
    List String → Except BIError (List String)
  | [] => pure []
  | col :: cols => do
    let l ←
      if edf.hasCol col && ndf.hasCol col then do
        let old_value ←
          match edf.get? col with
          | some vs =>
            match firstMatch exAbbr vs stateKey with
            | some v => pure v
            | none => .error .indexError
          | none => .error .indexError
        let new_value ←
          match ndf.get? col with
          | some vs =>
            match firstMatch newAbbr vs stateKey with
            | some v => pure v
            | none => .error .indexError
          | none => .error .indexError
        pair col old_value new_value
      else pure []
    let rest ← metricColsLoop ndf edf newAbbr exAbbr stateKey pair cols
    pure (l ++ rest)

/-- Body of the per-state loop, bi_checks.py lines 128-178, for one value
`st` drawn from `existing_df.Abbr`. -/
def perStateLines (ndf edf : DF) (numeric_cols percent_cols : List String)
    (newAbbr exAbbr : List Value) (st : Value) : Except BIError (List String) := do
  let stateV ←
    match firstMatch exAbbr exAbbr st with
    | some v => pure v
    | none => .error .indexError
  let newAbbr? := firstMatch newAbbr newAbbr st
  let l1 ← metricColsLoop ndf edf newAbbr exAbbr st
    (fun col o n => numericPairLines stateV newAbbr? col o n) numeric_cols
  let l2 ← metricColsLoop ndf edf newAbbr exAbbr st
    (fun col o n => percentPairLines stateV col o n) percent_cols
  pure (l1 ++ l2)

/-- Loop `for state in existing_df.Abbr` of bi_checks.py line 128. -/
def perStateLoop (ndf edf : DF) (numeric_cols percent_cols : List String)
    (newAbbr exAbbr : List Value) : List Value → Except BIError (List String)
  | [] => pure []
  | st :: sts => do
    let l ← perStateLines ndf edf numeric_cols percent_cols newAbbr exAbbr st
    let rest ← perStateLoop ndf edf numeric_cols percent_cols newAbbr exAbbr sts
    pure (l ++ rest)

/-- Lines for `states_dropped = old_states.difference(new_states)`,
bi_checks.py lines 106-107.  Note the exclamation mark in the issue text of
the source format string `'%s,State removed!\n'`. -/
def stateDroppedLines (newAbbr exAbbr : List Value) : List String :=
  (exAbbr.dedup.filter (fun s => !decide (s ∈ newAbbr))).map
    (fun s => fmtS s ++ ",State removed!")

/-- Lines for `states_added`, bi_checks.py lines 108-109. -/
def stateAddedLines (newAbbr exAbbr : List Value) : List String :=
  (newAbbr.dedup.filter (fun s => !decide (s ∈ exAbbr))).map
    (fun s => fmtS s ++ ",State added")

/-- Lines for added columns, bi_checks.py lines 115-119: columns of the new
dataframe absent from the existing one, skipping names that start with
"Unnamed". -/
def colsAddedLines (ndf edf : DF) : List String :=
  ((ndf.colNames.dedup.filter (fun c => !decide (c ∈ edf.colNames))).filter
    (fun c => !strStartsWith c "Unnamed")).map
    (fun c => "All,New column added," ++ c)

/-- Lines for removed columns, bi_checks.py lines 121-125. -/
def colsRemovedLines (ndf edf : DF) : List String :=
  ((edf.colNames.dedup.filter (fun c => !decide (c ∈ ndf.colNames))).filter
    (fun c => !strStartsWith c "Unnamed")).map
    (fun c => "All,Column removed," ++ c)

/-- Detection phase of make_output_string, bi_checks.py lines 99-179: header
line, state set diff, column set diff, then the per-state comparisons.  The
`Abbr` attribute accesses raise when the column is absent. -/
def make_output_lines (new_df existing_df : DF) (numeric_cols percent_cols : List String) :
    Except BIError (List String) := do
  let newAbbr ←
    match new_df.get? "Abbr" with
    | some vs => pure vs
    | none => .error .attributeError
  let exAbbr ←
    match existing_df.get? "Abbr" with
    | some vs => pure vs
    | none => .error .attributeError
  let header := ["State,Issue,Metric,Details"]
  let l1 := stateDroppedLines newAbbr exAbbr
  let l2 := stateAddedLines newAbbr exAbbr
  let l3 := colsAddedLines new_df existing_df
  let l4 := colsRemovedLines new_df existing_df
  let l5 ← perStateLoop new_df existing_df numeric_cols percent_cols newAbbr exAbbr exAbbr
  pure (header ++ l1 ++ l2 ++ l3 ++ l4 ++ l5)

/-- Whole pipeline of make_output_string on two already-loaded dataframes:
classification and normalization followed by the detection phase. -/
def run_checks (new_df existing_df : DF) : Except BIError (List String) := do
  let r ← classify_and_normalize new_df existing_df
  make_output_lines r.1 r.2.1 r.2.2.1 r.2.2.2

/-- The output string of make_output_string: every line followed by a
newline. -/
def make_output_string (new_df existing_df : DF) : Except BIError String :=
  (run_checks new_df existing_df).map
    (fun ls => ls.foldl (fun acc l => acc ++ l ++ "\n") "")

/-- Fields of an output line, as the downstream `pd.read_csv` consumer of the
report sees them. -/
def lineFields (s : String) : List String := (splitOnChar ',' s.data).map String.mk

/-- Test for a raw (string-typed) cell: a normalized metric column contains no
such cell. -/
def valIsStr : Value → Bool
  | .str _ => true
  | _ => false

/-! Concrete datasets used by witnesses and counterexamples. -/

/-- New snapshot of spec Scenario A: states CA and NY. -/
def dfNewStates : DF := ⟨[("Abbr", [.str "CA", .str "NY"])]⟩

/-- Existing snapshot of spec Scenario A: states CA and TX. -/
def dfOldStates : DF := ⟨[("Abbr", [.str "CA", .str "TX"])]⟩

/-- New snapshot with one extra column "Foo". -/
def dfNewCols : DF := ⟨[("Abbr", [.str "CA"]), ("Foo", [.missing])]⟩

/-- Existing snapshot without the column "Foo". -/
def dfOldCols : DF := ⟨[("Abbr", [.str "CA"])]⟩

/-- Normalized new snapshot lacking the state TX. -/
def dfNewRemoved : DF := ⟨[("Abbr", [.str "CA"]), ("BI cases", [.num 1])]⟩

/-- Normalized existing snapshot containing the state TX, absent from
`dfNewRemoved`. -/
def dfOldRemoved : DF := ⟨[("Abbr", [.str "CA", .str "TX"]), ("BI cases", [.num 1, .num 2])]⟩

/-- Covered pair: every existing state also occurs in the new snapshot. -/
def dfNewCovered : DF := ⟨[("Abbr", [.str "CA"]), ("BI cases", [.num 1])]⟩

/-- Existing counterpart of `dfNewCovered`. -/
def dfOldCovered : DF := ⟨[("Abbr", [.str "CA"]), ("BI cases", [.num 2])]⟩

/-- An already-normalized dataset: every metric value is numeric, among them
a percent-metric column holding 0.45. -/
def dfNormalized : DF :=
  ⟨[("Abbr", [.str "CA"]), ("BI cases", [.num 5]), ("b percent", [.num (9 / 20)]),
    ("Total Individuals not fully vaccinated", [.num 7])]⟩

/-- What normalizing `dfNormalized` actually produces: the already-numeric
percent value 0.45 is wiped to missing. -/
def dfNormalizedOut : DF :=
  ⟨[("Abbr", [.str "CA"]), ("BI cases", [.num 5]), ("b percent", [.missing]),
    ("Total Individuals not fully vaccinated", [.num 7])]⟩

/-! Auxiliary lemmas. -/

theorem string_data_append (s t : String) : (s ++ t).data = s.data ++ t.data := by
  cases s
  cases t
  rfl

theorem string_mk_data (s : String) : String.mk s.data = s := rfl

theorem dropWhile_all_false {p : Char → Bool} :
    ∀ m : List Char, (∀ c ∈ m, p c = false) → m.dropWhile p = m
  | [], _ => rfl
  | c :: t, h => by
    have hc := h c (List.mem_cons_self c t)
    simp [List.dropWhile, hc]

theorem dropWhile_percent_cons (m : List Char) :
    List.dropWhile (fun c => c == '%') ('%' :: m) = List.dropWhile (fun c => c == '%') m := by
  simp [List.dropWhile]

theorem stripPercentData_eq (l : List Char) :
    stripPercentData l =
      (((l.dropWhile (fun c => c == '%')).reverse.dropWhile (fun c => c == '%')).reverse) := rfl

theorem dropRight_percent_append (m : List Char) :
    ((m ++ ['%']).reverse.dropWhile (fun c => c == '%')).reverse =
      (m.reverse.dropWhile (fun c => c == '%')).reverse := by
  rw [List.reverse_append]
  simp only [List.reverse_cons, List.reverse_nil, List.nil_append, List.singleton_append]
  rw [dropWhile_percent_cons]

theorem dropRight_percent_all_false (m : List Char) (h : ∀ c ∈ m, (c == '%') = false) :
    (m.reverse.dropWhile (fun c => c == '%')).reverse = m := by
  rw [dropWhile_all_false m.reverse (fun c hc => h c (List.mem_reverse.mp hc)),
    List.reverse_reverse]

theorem stripPercentData_no_percent (l : List Char) (h : ∀ c ∈ l, c ≠ '%') :
    stripPercentData l = l := by
  have hb : ∀ c ∈ l, (c == '%') = false := by
    intro c hc
    simpa using h c hc
  rw [stripPercentData_eq, dropWhile_all_false l hb, dropRight_percent_all_false l hb]

theorem stripPercentData_append_percent (l : List Char) (h : ∀ c ∈ l, c ≠ '%') :
    stripPercentData (l ++ ['%']) = l := by
  have hb : ∀ c ∈ l, (c == '%') = false := by
    intro c hc
    simpa using h c hc
  rw [stripPercentData_eq]
  cases l with
  | nil => rfl
  | cons c t =>
    have hc : (c == '%') = false := hb c (List.mem_cons_self c t)
    have h1 : List.dropWhile (fun x => x == '%') ((c :: t) ++ ['%']) = (c :: t) ++ ['%'] := by
      simp [List.dropWhile, hc]
    rw [h1, dropRight_percent_append (c :: t), dropRight_percent_all_false (c :: t) hb]

theorem stripPercentData_wrap (l : List Char) (h : ∀ c ∈ l, c ≠ '%') :
    stripPercentData ('%' :: (l ++ ['%'])) = l := by
  have h2 := stripPercentData_append_percent l h
  rw [stripPercentData_eq] at h2 ⊢
  rw [dropWhile_percent_cons]
  exact h2

theorem p2f_str (s : String) :
    p2f (.str s) =
      match parseFloat (stripPercent s) with
      | some q => Value.num (q / 100)
      | none => Value.missing := rfl

theorem toNumericCell_str (s : String) :
    toNumericCell (.str s) =
      match parseFloat s with
      | some q => pure (Value.num q)
      | none => Except.error (.dataFormatError s) := rfl

theorem toNumericList_cons (v : Value) (vs : List Value) :
    toNumericList (v :: vs) =
      Bind.bind (toNumericCell v)
        (fun w => Bind.bind (toNumericList vs) (fun ws => pure (w :: ws))) := rfl

/-! Claims C5, C9, C10. -/

/-- Claim C5: the per-value percent conversion `p2f` is total and never
raises: a missing input normalizes to missing, a well-formed numeric string
(optionally carrying a trailing "%") has the "%" stripped and the number
divided by 100, a value of unexpected type (a number reaching the string
methods) yields missing, any unparseable string yields missing, and every
output is either missing or a number — never a raw string and never an
exception. -/
theorem p2f_total :
    (p2f .missing = .missing) ∧
    (∀ q : ℚ, p2f (.num q) = .missing) ∧
    (∀ v : Value, p2f v = .missing ∨ ∃ q : ℚ, p2f v = .num q) ∧
    (∀ (s : String) (q : ℚ), (∀ c ∈ s.data, c ≠ '%') → parseFloat s = some q →
      p2f (.str (s ++ "%")) = .num (q / 100) ∧ p2f (.str s) = .num (q / 100)) ∧
    (∀ s : String, parseFloat (stripPercent s) = none → p2f (.str s) = .missing) := by
  refine ⟨rfl, fun q => rfl, ?_, ?_, ?_⟩
  · intro v
    match v with
    | .missing => exact Or.inl rfl
    | .num q => exact Or.inl rfl
    | .str s =>
      rw [p2f_str]
      cases hp : parseFloat (stripPercent s) with
      | none => exact Or.inl rfl
      | some q => exact Or.inr ⟨q / 100, rfl⟩
  · intro s q hnp hs
    have hdata : (s ++ "%").data = s.data ++ ['%'] := by
      rw [string_data_append]
    have h1 : stripPercent (s ++ "%") = s := by
      unfold stripPercent
      rw [hdata, stripPercentData_append_percent s.data hnp, string_mk_data]
    have h2 : stripPercent s = s := by
      unfold stripPercent
      rw [stripPercentData_no_percent s.data hnp, string_mk_data]
    constructor
    · rw [p2f_str, h1, hs]
    · rw [p2f_str, h2, hs]
  · intro s hs
    rw [p2f_str, hs]

/-- Witness for C5 at concrete inputs: "45.50" parses to 91/2, is in
particular percent-free, and p2f maps "45.50%" and "45.50" to 0.455 while an
unparseable string maps to missing. -/
theorem p2f_total_witness :
    p2f (.str ("45.50" ++ "%")) = .num ((91 : ℚ) / 2 / 100) ∧
    p2f (.str "abc") = .missing := by
  constructor
  · exact (p2f_total.2.2.2.1 "45.50" ((91 : ℚ) / 2)
      (by decide) (by with_unfolding_all decide)).1
  · exact p2f_total.2.2.2.2 "abc" (by with_unfolding_all decide)

/-- Claim C10: the percent conversion strips "%" characters from both ends of
the string (Python `strip('%')`), not only a single trailing one: wrapping a
percent-free numeric string in one leading and one trailing "%" still parses,
divided by 100. -/
theorem p2f_strips_both_ends :
    ∀ (s : String) (q : ℚ), (∀ c ∈ s.data, c ≠ '%') → parseFloat s = some q →
      p2f (.str ("%" ++ s ++ "%")) = .num (q / 100) := by
  intro s q hnp hs
  have hdata : ("%" ++ s ++ "%").data = '%' :: (s.data ++ ['%']) := by
    rw [string_data_append, string_data_append]
    rfl
  have h1 : stripPercent ("%" ++ s ++ "%") = s := by
    unfold stripPercent
    rw [hdata, stripPercentData_wrap s.data hnp, string_mk_data]
  rw [p2f_str, h1, hs]

/-- Witness for C10: the value "%45%" normalizes to the number 0.45, not to
missing. -/
theorem p2f_strips_both_ends_witness :
    p2f (.str ("%" ++ "45" ++ "%")) = .num ((45 : ℚ) / 100) :=
  p2f_strips_both_ends "45" 45 (by decide) (by with_unfolding_all decide)

/-- Claim C9: for a string-typed numeric-metric cell the normalization parses
the string obtained by deleting the commas and then replacing every
occurrence of the character "X" anywhere in it by "1" — not only whole-cell
placeholders; in particular the cell "2X" normalizes to the number 21. -/
theorem numeric_X_replacement_all_occurrences :
    (∀ (s : String) (q : ℚ),
      parseFloat (String.mk (replaceChar 'X' ['1'] (replaceChar ',' [] s.data))) = some q →
      normNumericCol [.str s] = .ok [.num q]) ∧
    normNumericCol [.str "2X"] = .ok [.num 21] := by
  constructor
  · intro s q hp
    show toNumericList [.str (String.mk (replaceChar 'X' ['1'] (replaceChar ',' [] s.data)))] =
      .ok [.num q]
    rw [toNumericList_cons, toNumericCell_str, hp]
    rfl
  · with_unfolding_all decide

/-- Witness for C9: instantiating the universally quantified part at the
claim's own example "2X", whose comma-stripped X-replaced form "21" parses to
21. -/
theorem numeric_X_replacement_all_occurrences_witness :
    normNumericCol [.str "2X"] = .ok [.num 21] :=
  numeric_X_replacement_all_occurrences.1 "2X" 21 (by with_unfolding_all decide)

/-! Claim C6. -/

theorem listIdx?_eq_none (l : List String) (c : String) (h : c ∉ l) : listIdx? l c = none := by
  induction l with
  | nil => rfl
  | cons x xs ih =>
    have hx : ¬ x = c := fun he => h (he ▸ List.mem_cons_self x xs)
    simp [listIdx?, hx, ih (fun hm => h (List.mem_cons_of_mem x hm))]

theorem listIdx?_eq_some (l : List String) (c : String) (h : c ∈ l) :
    ∃ i, listIdx? l c = some i := by
  induction l with
  | nil => cases h
  | cons x xs ih =>
    by_cases hx : x = c
    · exact ⟨0, by simp [listIdx?, hx]⟩
    · have hm : c ∈ xs := by
        cases List.mem_cons.mp h with
        | inl he => exact absurd he.symm hx
        | inr hm => exact hm
      obtain ⟨i, hi⟩ := ih hm
      exact ⟨i + 1, by simp [listIdx?, hx, hi]⟩

/-- Claim C6: if either configured boundary column name is absent from the
new dataset's columns, the classification step fails with the configuration
error naming that column.  Both dataframes (in particular all row contents)
are universally quantified, so the failure is independent of the data: no
normalization is performed before it. -/
theorem classify_configuration_error (new_df existing_df : DF) :
    (first_numeric_colname ∉ new_df.colNames →
      classify_and_normalize new_df existing_df =
        .error (.configurationError first_numeric_colname)) ∧
    (first_numeric_colname ∈ new_df.colNames → last_numeric_colname ∉ new_df.colNames →
      classify_and_normalize new_df existing_df =
        .error (.configurationError last_numeric_colname)) := by
  constructor
  · intro h
    unfold classify_and_normalize
    rw [listIdx?_eq_none _ _ h]
    rfl
  · intro h1 h2
    obtain ⟨i, hi⟩ := listIdx?_eq_some _ _ h1
    unfold classify_and_normalize
    rw [hi, listIdx?_eq_none _ _ h2]
    rfl

/-- Witness for C6: a new dataset without "BI cases", and one with "BI cases"
but without "Total Individuals not fully vaccinated". -/
theorem classify_configuration_error_witness :
    classify_and_normalize ⟨[("Abbr", [])]⟩ ⟨[]⟩ = .error (.configurationError "BI cases") ∧
    classify_and_normalize ⟨[("BI cases", [])]⟩ ⟨[]⟩ =
      .error (.configurationError "Total Individuals not fully vaccinated") := by
  constructor
  · exact (classify_configuration_error ⟨[("Abbr", [])]⟩ ⟨[]⟩).1 (by decide)
  · exact (classify_configuration_error ⟨[("BI cases", [])]⟩ ⟨[]⟩).2 (by decide) (by decide)

/-! Claims C7 and C8: the magnitude checks on one (state, column) pair. -/

theorem fmtS_str (s : String) : fmtS (.str s) = s := rfl

/-- Characterization of the numeric per-pair checks when both values are
present: no presence records, a cumulative-decrease record unless
whitelisted, and an independent >2x-increase record. -/
theorem numericPairLines_num_num (stateV a : Value) (col : String) (o n : ℚ) :
    numericPairLines stateV (some a) col (.num o) (.num n) =
      .ok ((if n < o ∧ ¬ col ∈ whitelist_cols then
          [fmtS stateV ++ ",Cumulative decrease," ++ col ++ "," ++ fmtInt o ++ " -> " ++ fmtInt n]
        else []) ++
        (if 2 * o < n then
          [fmtS a ++ ",>2x increase," ++ col ++ "," ++ fmtInt o ++ " -> " ++ fmtInt n]
        else [])) := by
  by_cases hlt : n < o <;> by_cases hw : col ∈ whitelist_cols <;> by_cases hgt : 2 * o < n <;>
    simp [numericPairLines, valIsNull, valLtE, valGtE, valMul2, fmtIntE, hlt, hw, hgt] <;>
    rfl

theorem splitOnChar_append_sep (sep : Char) (x rest : List Char) (hx : ∀ c ∈ x, c ≠ sep) :
    splitOnChar sep (x ++ sep :: rest) = x :: splitOnChar sep rest := by
  induction x with
  | nil => simp [splitOnChar]
  | cons c t ih =>
    have hc : ¬ c = sep := hx c (List.mem_cons_self c t)
    have ih2 := ih (fun y hy => hx y (List.mem_cons_of_mem c hy))
    simp [splitOnChar, hc, ih2]

theorem lineFields_get1 (a b rest : String) (ha : ∀ c ∈ a.data, c ≠ ',')
    (hb : ∀ c ∈ b.data, c ≠ ',') (l : String)
    (hl : l.data = a.data ++ ',' :: (b.data ++ ',' :: rest.data)) :
    (lineFields l).get? 1 = some b := by
  unfold lineFields
  rw [hl, splitOnChar_append_sep ',' a.data _ ha, splitOnChar_append_sep ',' b.data _ hb]
  simp [string_mk_data]

/-- Claim C7: with both values present and `new < old`, the whitelisted
column "Total Individuals not fully vaccinated" produces no record whose
issue field is Cumulative decrease, while a non-whitelisted column produces
the Cumulative decrease record with detail old -> new. -/
theorem cumulative_decrease_whitelisted (s a col : String) (o n : ℚ)
    (ha : ∀ c ∈ a.data, c ≠ ',') (hlt : n < o) :
    (col = "Total Individuals not fully vaccinated" →
      ∃ ls, numericPairLines (.str s) (some (.str a)) col (.num o) (.num n) = .ok ls ∧
        ∀ l ∈ ls, (lineFields l).get? 1 ≠ some "Cumulative decrease") ∧
    (col ≠ "Total Individuals not fully vaccinated" →
      ∃ ls, numericPairLines (.str s) (some (.str a)) col (.num o) (.num n) = .ok ls ∧
        (s ++ ",Cumulative decrease," ++ col ++ "," ++ fmtInt o ++ " -> " ++ fmtInt n) ∈ ls) := by
  constructor
  · intro hcol
    refine ⟨_, numericPairLines_num_num (.str s) (.str a) col o n, ?_⟩
    have hw : col ∈ whitelist_cols := by
      rw [hcol]
      decide
    intro l hlmem
    simp only [hw, not_true_eq_false, and_false, if_false, List.nil_append] at hlmem
    by_cases hgt : 2 * o < n
    · rw [if_pos hgt] at hlmem
      have hleq : l = fmtS (.str a) ++ ",>2x increase," ++ col ++ "," ++ fmtInt o ++ " -> " ++
          fmtInt n := by
        simpa using hlmem
      have hdata : l.data =
          a.data ++ ',' :: ((">2x increase").data ++ ',' ::
            (col ++ "," ++ fmtInt o ++ " -> " ++ fmtInt n).data) := by
        rw [hleq, fmtS_str]
        simp only [string_data_append, List.append_assoc]
        rfl
      rw [lineFields_get1 a ">2x increase" (col ++ "," ++ fmtInt o ++ " -> " ++ fmtInt n)
        ha (by decide) l hdata]
      intro hcontr
      have : (">2x increase" : String) = "Cumulative decrease" := by
        injection hcontr
      exact absurd this (by decide)
    · rw [if_neg hgt] at hlmem
      cases hlmem
  · intro hcol
    refine ⟨_, numericPairLines_num_num (.str s) (.str a) col o n, ?_⟩
    have hw : ¬ col ∈ whitelist_cols := by
      intro hmem
      exact hcol (by simpa [whitelist_cols] using hmem)
    simp [hlt, hw, fmtS_str]

/-- Witness for C7 at the inputs of spec Scenario C / Scenario F: old 100,
new 40 on the whitelisted column (no decrease record) and on the
non-whitelisted column "BI cases" (decrease record with detail 100 -> 40). -/
theorem cumulative_decrease_whitelisted_witness :
    (∃ ls,
      numericPairLines (.str "CA") (some (.str "CA"))
          "Total Individuals not fully vaccinated" (.num 100) (.num 40) = .ok ls ∧
        ∀ l ∈ ls, (lineFields l).get? 1 ≠ some "Cumulative decrease") ∧
    (∃ ls,
      numericPairLines (.str "CA") (some (.str "CA")) "BI cases" (.num 100) (.num 40) = .ok ls ∧
        ("CA" ++ ",Cumulative decrease," ++ "BI cases" ++ "," ++ fmtInt 100 ++ " -> " ++
          fmtInt 40) ∈ ls) := by
  constructor
  · exact (cumulative_decrease_whitelisted "CA" "CA" "Total Individuals not fully vaccinated"
      100 40 (by decide) (by norm_num)).1 rfl
  · exact (cumulative_decrease_whitelisted "CA" "CA" "BI cases" 100 40 (by decide)
      (by norm_num)).2 (by decide)

/-- Claim C8: for a non-whitelisted numeric column with both values present
the cumulative-decrease check and the >2x-increase check are independent:
each fires exactly under its own condition, and when both conditions hold
both records are emitted for the same pair. -/
theorem magnitude_checks_independent (s a col : String) (o n : ℚ)
    (hw : ¬ col ∈ whitelist_cols) :
    ∃ ls, numericPairLines (.str s) (some (.str a)) col (.num o) (.num n) = .ok ls ∧
      (n < o →
        (s ++ ",Cumulative decrease," ++ col ++ "," ++ fmtInt o ++ " -> " ++ fmtInt n) ∈ ls) ∧
      (2 * o < n →
        (a ++ ",>2x increase," ++ col ++ "," ++ fmtInt o ++ " -> " ++ fmtInt n) ∈ ls) ∧
      (n < o → 2 * o < n →
        (s ++ ",Cumulative decrease," ++ col ++ "," ++ fmtInt o ++ " -> " ++ fmtInt n) ∈ ls ∧
        (a ++ ",>2x increase," ++ col ++ "," ++ fmtInt o ++ " -> " ++ fmtInt n) ∈ ls) := by
  refine ⟨_, numericPairLines_num_num (.str s) (.str a) col o n, ?_, ?_, ?_⟩
  · intro hlt
    simp [hlt, hw, fmtS_str]
  · intro hgt
    simp [hgt, fmtS_str]
  · intro hlt hgt
    constructor
    · simp [hlt, hw, fmtS_str]
    · simp [hgt, fmtS_str]

/-- Witness for C8: old -10, new -15 satisfies both new < old and
new > 2*old, and both records are emitted for the same pair. -/
theorem magnitude_checks_independent_witness :
    ∃ ls,
      numericPairLines (.str "CA") (some (.str "CA")) "BI cases" (.num (-10)) (.num (-15)) =
        .ok ls ∧
      ("CA" ++ ",Cumulative decrease," ++ "BI cases" ++ "," ++ fmtInt (-10) ++ " -> " ++
        fmtInt (-15)) ∈ ls ∧
      ("CA" ++ ",>2x increase," ++ "BI cases" ++ "," ++ fmtInt (-10) ++ " -> " ++
        fmtInt (-15)) ∈ ls := by
  obtain ⟨ls, hok, _, _, hboth⟩ :=
    magnitude_checks_independent "CA" "CA" "BI cases" (-10) (-15) (by decide)
  exact ⟨ls, hok, hboth (by norm_num) (by norm_num)⟩

/-! Claims C3 and C4: structural diff records. -/

theorem splitOnChar_no_sep (sep : Char) (x : List Char) (hx : ∀ c ∈ x, c ≠ sep) :
    splitOnChar sep x = [x] := by
  induction x with
  | nil => rfl
  | cons c t ih =>
    have hc : ¬ c = sep := hx c (List.mem_cons_self c t)
    have ih2 := ih (fun y hy => hx y (List.mem_cons_of_mem c hy))
    simp [splitOnChar, hc, ih2]

theorem lineFields_pair (s tailStr : String) (hs : ∀ c ∈ s.data, c ≠ ',')
    (htail : ∀ c ∈ tailStr.data, c ≠ ',') (l : String)
    (hl : l.data = s.data ++ ',' :: tailStr.data) :
    lineFields l = [s, tailStr] := by
  unfold lineFields
  rw [hl, splitOnChar_append_sep ',' s.data _ hs, splitOnChar_no_sep ',' tailStr.data htail]
  simp [string_mk_data]

theorem lineFields_triple (a b col : String) (ha : ∀ c ∈ a.data, c ≠ ',')
    (hb : ∀ c ∈ b.data, c ≠ ',') (hcol : ∀ c ∈ col.data, c ≠ ',') (l : String)
    (hl : l.data = a.data ++ ',' :: (b.data ++ ',' :: col.data)) :
    lineFields l = [a, b, col] := by
  unfold lineFields
  rw [hl, splitOnChar_append_sep ',' a.data _ ha, splitOnChar_append_sep ',' b.data _ hb,
    splitOnChar_no_sep ',' col.data hcol]
  simp [string_mk_data]

/-- Successful runs of the detection phase decompose into the header, the
state diff, the column diff and the per-state comparison lines, in this
order. -/
theorem make_output_lines_ok_struct (ndf edf : DF) (nc pc : List String) (ls : List String)
    (h : make_output_lines ndf edf nc pc = .ok ls) :
    ∃ na ea l5, ndf.get? "Abbr" = some na ∧ edf.get? "Abbr" = some ea ∧
      perStateLoop ndf edf nc pc na ea ea = .ok l5 ∧
      ls = ["State,Issue,Metric,Details"] ++ stateDroppedLines na ea ++ stateAddedLines na ea ++
        colsAddedLines ndf edf ++ colsRemovedLines ndf edf ++ l5 := by
  unfold make_output_lines at h
  cases hna : ndf.get? "Abbr" with
  | none =>
    rw [hna] at h
    exact Except.noConfusion h
  | some na =>
    rw [hna] at h
    cases hea : edf.get? "Abbr" with
    | none =>
      rw [hea] at h
      exact Except.noConfusion h
    | some ea =>
      rw [hea] at h
      have h2 : Bind.bind (perStateLoop ndf edf nc pc na ea ea)
          (fun l5 => (pure (["State,Issue,Metric,Details"] ++ stateDroppedLines na ea ++
            stateAddedLines na ea ++ colsAddedLines ndf edf ++ colsRemovedLines ndf edf ++ l5) :
              Except BIError (List String))) = Except.ok ls := h
      cases hl5 : perStateLoop ndf edf nc pc na ea ea with
      | error e =>
        rw [hl5] at h2
        exact Except.noConfusion h2
      | ok l5 =>
        rw [hl5] at h2
        have h' : Except.ok (["State,Issue,Metric,Details"] ++ stateDroppedLines na ea ++
            stateAddedLines na ea ++ colsAddedLines ndf edf ++ colsRemovedLines ndf edf ++ l5) =
            Except.ok ls := h2
        exact ⟨na, ea, l5, rfl, rfl, hl5, (Except.ok.inj h').symm⟩

theorem mem_stateDroppedLines (na ea : List Value) (s : String)
    (h1 : Value.str s ∈ ea) (h2 : Value.str s ∉ na) :
    (s ++ ",State removed!") ∈ stateDroppedLines na ea := by
  unfold stateDroppedLines
  refine List.mem_map.mpr ⟨Value.str s, ?_, by rw [fmtS_str]⟩
  refine List.mem_filter.mpr ⟨List.mem_dedup.mpr h1, ?_⟩
  simp [h2]

theorem mem_stateAddedLines (na ea : List Value) (s : String)
    (h1 : Value.str s ∈ na) (h2 : Value.str s ∉ ea) :
    (s ++ ",State added") ∈ stateAddedLines na ea := by
  unfold stateAddedLines
  refine List.mem_map.mpr ⟨Value.str s, ?_, by rw [fmtS_str]⟩
  refine List.mem_filter.mpr ⟨List.mem_dedup.mpr h1, ?_⟩
  simp [h2]

theorem mem_colsAddedLines (ndf edf : DF) (col : String)
    (h1 : col ∈ ndf.colNames) (h2 : col ∉ edf.colNames)
    (h3 : strStartsWith col "Unnamed" = false) :
    ("All,New column added," ++ col) ∈ colsAddedLines ndf edf := by
  unfold colsAddedLines
  refine List.mem_map.mpr ⟨col, ?_, rfl⟩
  refine List.mem_filter.mpr ⟨List.mem_filter.mpr ⟨List.mem_dedup.mpr h1, ?_⟩, ?_⟩
  · simp [h2]
  · simp [h3]

theorem mem_colsRemovedLines (ndf edf : DF) (col : String)
    (h1 : col ∈ edf.colNames) (h2 : col ∉ ndf.colNames)
    (h3 : strStartsWith col "Unnamed" = false) :
    ("All,Column removed," ++ col) ∈ colsRemovedLines ndf edf := by
  unfold colsRemovedLines
  refine List.mem_map.mpr ⟨col, ?_, rfl⟩
  refine List.mem_filter.mpr ⟨List.mem_filter.mpr ⟨List.mem_dedup.mpr h1, ?_⟩, ?_⟩
  · simp [h2]
  · simp [h3]

/-- Claim C4 (amended): for a state identifier only in the existing dataset
the detector emits the two-field record with issue text exactly
"State removed!" — with a trailing exclamation mark, unlike the claim's
"State removed" — and for an identifier only in the new dataset the two-field
record with issue text exactly "State added"; neither record carries a metric
or detail payload. -/
theorem state_diff_records (ndf edf : DF) (nc pc : List String) (na ea : List Value)
    (ls : List String) (s : String)
    (h : make_output_lines ndf edf nc pc = .ok ls)
    (hna : ndf.get? "Abbr" = some na) (hea : edf.get? "Abbr" = some ea)
    (hs : ∀ c ∈ s.data, c ≠ ',') :
    (Value.str s ∈ ea → Value.str s ∉ na →
      (s ++ ",State removed!") ∈ ls ∧
      lineFields (s ++ ",State removed!") = [s, "State removed!"]) ∧
    (Value.str s ∈ na → Value.str s ∉ ea →
      (s ++ ",State added") ∈ ls ∧ lineFields (s ++ ",State added") = [s, "State added"]) := by
  obtain ⟨na', ea', l5, hna', hea', hl5, hls⟩ := make_output_lines_ok_struct ndf edf nc pc ls h
  rw [hna] at hna'
  rw [hea] at hea'
  obtain rfl : na = na' := Option.some.inj hna'
  obtain rfl : ea = ea' := Option.some.inj hea'
  constructor
  · intro h1 h2
    constructor
    · rw [hls]
      simp only [List.mem_append]
      exact Or.inl (Or.inl (Or.inl (Or.inl (Or.inr (mem_stateDroppedLines na ea s h1 h2)))))
    · refine lineFields_pair s "State removed!" hs (by decide) _ ?_
      simp only [string_data_append]
  · intro h1 h2
    constructor
    · rw [hls]
      simp only [List.mem_append]
      exact Or.inl (Or.inl (Or.inl (Or.inr (mem_stateAddedLines na ea s h1 h2))))
    · refine lineFields_pair s "State added" hs (by decide) _ ?_
      simp only [string_data_append]

/-- Counterexample for C4 as stated: in spec Scenario A (new states CA and
NY, existing CA and TX) the detector's output is computed in full; the TX
record reads "TX,State removed!" — its issue field is "State removed!", and
no record of the run has issue field exactly "State removed". -/
theorem state_removed_record_cex :
    make_output_lines dfNewStates dfOldStates [] [] =
      .ok ["State,Issue,Metric,Details", "TX,State removed!", "NY,State added"] ∧
    (∀ l ∈ ["State,Issue,Metric,Details", "TX,State removed!", "NY,State added"],
      (lineFields l).get? 1 ≠ some "State removed") ∧
    (lineFields "TX,State removed!").get? 1 = some "State removed!" := by
  with_unfolding_all decide

/-- Witness for C4 (amended) at spec Scenario A: TX yields the
"State removed!" record with exactly the two fields TX and "State removed!",
and NY yields "State added". -/
theorem state_diff_records_witness :
    (("TX" ++ ",State removed!") ∈
        ["State,Issue,Metric,Details", "TX,State removed!", "NY,State added"] ∧
      lineFields ("TX" ++ ",State removed!") = ["TX", "State removed!"]) ∧
    (("NY" ++ ",State added") ∈
        ["State,Issue,Metric,Details", "TX,State removed!", "NY,State added"] ∧
      lineFields ("NY" ++ ",State added") = ["NY", "State added"]) := by
  have h1 := state_diff_records dfNewStates dfOldStates [] []
    [.str "CA", .str "NY"] [.str "CA", .str "TX"]
    ["State,Issue,Metric,Details", "TX,State removed!", "NY,State added"] "TX"
    (by with_unfolding_all decide) rfl rfl (by decide)
  have h2 := state_diff_records dfNewStates dfOldStates [] []
    [.str "CA", .str "NY"] [.str "CA", .str "TX"]
    ["State,Issue,Metric,Details", "TX,State removed!", "NY,State added"] "NY"
    (by with_unfolding_all decide) rfl rfl (by decide)
  exact ⟨h1.1 (by decide) (by decide), h2.2 (by decide) (by decide)⟩

/-- Claim C3 (amended): for a column only in the new (respectively only in
the existing) dataset and not starting with "Unnamed", the detector emits the
record "All,New column added,<col>" (respectively "All,Column removed,<col>"):
a three-field record whose state field is "All", whose issue kind is as
claimed, and whose THIRD field — the metric position — is the column name;
there is no fourth (detail) field, contrary to the claim's placement of the
column name in the detail field. -/
theorem column_diff_records (ndf edf : DF) (nc pc : List String) (ls : List String)
    (col : String) (h : make_output_lines ndf edf nc pc = .ok ls)
    (hcomma : ∀ c ∈ col.data, c ≠ ',') :
    (col ∈ ndf.colNames → col ∉ edf.colNames → strStartsWith col "Unnamed" = false →
      ("All,New column added," ++ col) ∈ ls ∧
      lineFields ("All,New column added," ++ col) = ["All", "New column added", col]) ∧
    (col ∈ edf.colNames → col ∉ ndf.colNames → strStartsWith col "Unnamed" = false →
      ("All,Column removed," ++ col) ∈ ls ∧
      lineFields ("All,Column removed," ++ col) = ["All", "Column removed", col]) := by
  obtain ⟨na, ea, l5, hna, hea, hl5, hls⟩ := make_output_lines_ok_struct ndf edf nc pc ls h
  constructor
  · intro h1 h2 h3
    constructor
    · rw [hls]
      simp only [List.mem_append]
      exact Or.inl (Or.inl (Or.inr (mem_colsAddedLines ndf edf col h1 h2 h3)))
    · refine lineFields_triple "All" "New column added" col (by decide) (by decide) hcomma _ ?_
      simp only [string_data_append]
      rfl
  · intro h1 h2 h3
    constructor
    · rw [hls]
      simp only [List.mem_append]
      exact Or.inl (Or.inr (mem_colsRemovedLines ndf edf col h1 h2 h3))
    · refine lineFields_triple "All" "Column removed" col (by decide) (by decide) hcomma _ ?_
      simp only [string_data_append]
      rfl

/-- Counterexample for C3 as stated: with the column "Foo" present only in
the new dataset, the full detection output contains the three-field record
"All,New column added,Foo" whose metric field is "Foo" (not empty), and no
record of the run has the claimed shape with an empty metric field and the
column name in a fourth detail field. -/
theorem column_diff_record_shape_cex :
    make_output_lines dfNewCols dfOldCols [] [] =
      .ok ["State,Issue,Metric,Details", "All,New column added,Foo"] ∧
    lineFields "All,New column added,Foo" = ["All", "New column added", "Foo"] ∧
    (∀ l ∈ ["State,Issue,Metric,Details", "All,New column added,Foo"],
      lineFields l ≠ ["All", "New column added", "", "Foo"]) := by
  with_unfolding_all decide

/-- Witness for C3 (amended): the record for the added column "Foo" is
present in the run on `dfNewCols` versus `dfOldCols` and carries "Foo" as its
third field. -/
theorem column_diff_records_witness :
    ("All,New column added," ++ "Foo") ∈
      ["State,Issue,Metric,Details", "All,New column added,Foo"] ∧
    lineFields ("All,New column added," ++ "Foo") = ["All", "New column added", "Foo"] := by
  have h := column_diff_records dfNewCols dfOldCols [] []
    ["State,Issue,Metric,Details", "All,New column added,Foo"] "Foo"
    (by with_unfolding_all decide) (by decide)
  exact h.1 (by decide) (by decide) (by decide)

/-! Claim C1: behavior of the detection phase on states missing from the new
dataset. -/

theorem valEq_str_self (s : String) : valEq (.str s) (.str s) = true := by
  simp [valEq]

theorem valIsStr_iff (v : Value) : valIsStr v = true ↔ ∃ s, v = .str s := by
  cases v <;> simp [valIsStr]

theorem firstMatch_isSome :
    ∀ (ks vs : List Value) (key : Value), ks.length ≤ vs.length →
      (∃ k ∈ ks, valEq k key = true) → ∃ v, firstMatch ks vs key = some v
  | [], _, key, _, hex => by
    obtain ⟨k, hk, _⟩ := hex
    exact absurd hk (List.not_mem_nil k)
  | k :: ks, [], key, hlen, _ => by simp at hlen
  | k :: ks, v :: vs, key, hlen, hex => by
    by_cases hk : valEq k key = true
    · exact ⟨v, by simp [firstMatch, hk]⟩
    · obtain ⟨k', hk', he⟩ := hex
      have hk2 : k' ∈ ks := by
        cases List.mem_cons.mp hk' with
        | inl h => exact absurd (h ▸ he) hk
        | inr h => exact h
      obtain ⟨w, hw⟩ := firstMatch_isSome ks vs key (Nat.le_of_succ_le_succ hlen) ⟨k', hk2, he⟩
      exact ⟨w, by simp [firstMatch, hk, hw]⟩

theorem firstMatch_mem :
    ∀ (ks vs : List Value) (key v : Value), firstMatch ks vs key = some v → v ∈ vs
  | [], vs, key, v, h => by cases vs <;> exact Option.noConfusion h
  | _ :: _, [], key, v, h => Option.noConfusion h
  | k :: ks, v' :: vs, key, v, h => by
    by_cases hk : valEq k key = true
    · simp [firstMatch, hk] at h
      rw [← h]
      exact List.mem_cons_self v' vs
    · simp [firstMatch, hk] at h
      exact List.mem_cons_of_mem v' (firstMatch_mem ks vs key v h)

theorem lookupCol_mem :
    ∀ (l : List (String × List Value)) (c : String) (vs : List Value),
      lookupCol c l = some vs → (c, vs) ∈ l
  | [], _, _, h => Option.noConfusion h
  | p :: ps, c, vs, h => by
    by_cases hp : p.1 = c
    · simp only [lookupCol, hp, if_true] at h
      have h2 : (c, vs) = p := by
        rw [← hp, ← Option.some.inj h]
      rw [h2]
      exact List.mem_cons_self p ps
    · simp only [lookupCol, hp, if_false] at h
      exact List.mem_cons_of_mem p (lookupCol_mem ps c vs h)

theorem lookupCol_isSome_of_mem :
    ∀ (l : List (String × List Value)) (c : String),
      c ∈ l.map Prod.fst → ∃ vs, lookupCol c l = some vs
  | [], c, h => absurd h (List.not_mem_nil c)
  | p :: ps, c, h => by
    by_cases hp : p.1 = c
    · exact ⟨p.2, by simp [lookupCol, hp]⟩
    · have h3 := h
      simp only [List.map_cons, List.mem_cons] at h3
      have h2 : c ∈ ps.map Prod.fst := by
        rcases h3 with h1 | h1
        · exact absurd h1.symm hp
        · exact h1
      obtain ⟨vs, hvs⟩ := lookupCol_isSome_of_mem ps c h2
      exact ⟨vs, by simp [lookupCol, hp, hvs]⟩

theorem hasCol_get? (df : DF) (c : String) (h : df.hasCol c = true) :
    ∃ vs, df.get? c = some vs :=
  lookupCol_isSome_of_mem df.cols c (of_decide_eq_true h)

/-- Totality of the numeric per-pair checks on clean (non-string) values with
a resolvable new-row state. -/
theorem numericPairLines_ok (stateV a : Value) (col : String) :
    ∀ o n : Value, valIsStr o = false → valIsStr n = false →
      ∃ ls, numericPairLines stateV (some a) col o n = .ok ls := by
  intro o n ho hn
  match o, ho, n, hn with
  | .str s, ho, _, _ => exact absurd ho (by simp [valIsStr])
  | .missing, _, .str s, hn => exact absurd hn (by simp [valIsStr])
  | .num q, _, .str s, hn => exact absurd hn (by simp [valIsStr])
  | .missing, _, .missing, _ => exact ⟨[], rfl⟩
  | .missing, _, .num qn, _ => exact ⟨_, rfl⟩
  | .num qo, _, .missing, _ => exact ⟨_, rfl⟩
  | .num qo, _, .num qn, _ => exact ⟨_, numericPairLines_num_num stateV a col qo qn⟩

/-- Totality of the percent per-pair checks on clean (non-string) values. -/
theorem percentPairLines_ok (stateV : Value) (col : String) :
    ∀ o n : Value, valIsStr o = false → valIsStr n = false →
      ∃ ls, percentPairLines stateV col o n = .ok ls := by
  intro o n ho hn
  match o, ho, n, hn with
  | .str s, ho, _, _ => exact absurd ho (by simp [valIsStr])
  | .missing, _, .str s, hn => exact absurd hn (by simp [valIsStr])
  | .num q, _, .str s, hn => exact absurd hn (by simp [valIsStr])
  | .missing, _, .missing, _ => exact ⟨[], rfl⟩
  | .missing, _, .num qn, _ => exact ⟨_, rfl⟩
  | .num qo, _, .missing, _ => exact ⟨_, rfl⟩
  | .num qo, _, .num qn, _ => exact ⟨[], rfl⟩

theorem metricColsLoop_ok (ndf edf : DF) (na ea : List Value) (st : Value)
    (pair : String → Value → Value → Except BIError (List String))
    (hpair : ∀ col o n, valIsStr o = false → valIsStr n = false →
      ∃ ls, pair col o n = .ok ls)
    (hkey_e : ∃ k ∈ ea, valEq k st = true) (hkey_n : ∃ k ∈ na, valEq k st = true) :
    ∀ cols : List String,
      (∀ c ∈ cols, ∀ vs, edf.get? c = some vs →
        ea.length ≤ vs.length ∧ ∀ v ∈ vs, valIsStr v = false) →
      (∀ c ∈ cols, ∀ vs, ndf.get? c = some vs →
        na.length ≤ vs.length ∧ ∀ v ∈ vs, valIsStr v = false) →
      ∃ ls, metricColsLoop ndf edf na ea st pair cols = .ok ls
  | [], _, _ => ⟨[], rfl⟩
  | col :: cols, he, hn => by
    obtain ⟨ls2, hls2⟩ := metricColsLoop_ok ndf edf na ea st pair hpair hkey_e hkey_n cols
      (fun c hc => he c (List.mem_cons_of_mem col hc))
      (fun c hc => hn c (List.mem_cons_of_mem col hc))
    by_cases hg : (edf.hasCol col && ndf.hasCol col) = true
    · have hce : edf.hasCol col = true := ((Bool.and_eq_true _ _).mp hg).1
      have hcn : ndf.hasCol col = true := ((Bool.and_eq_true _ _).mp hg).2
      obtain ⟨evs, heq⟩ := hasCol_get? edf col hce
      obtain ⟨nvs, hneq⟩ := hasCol_get? ndf col hcn
      have hpe := he col (List.mem_cons_self col cols) evs heq
      have hpn := hn col (List.mem_cons_self col cols) nvs hneq
      obtain ⟨ov, hov⟩ := firstMatch_isSome ea evs st hpe.1 hkey_e
      obtain ⟨nv, hnv⟩ := firstMatch_isSome na nvs st hpn.1 hkey_n
      have hostr : valIsStr ov = false := hpe.2 ov (firstMatch_mem ea evs st ov hov)
      have hnstr : valIsStr nv = false := hpn.2 nv (firstMatch_mem na nvs st nv hnv)
      obtain ⟨pls, hpls⟩ := hpair col ov nv hostr hnstr
      refine ⟨pls ++ ls2, ?_⟩
      simp only [metricColsLoop, hg, heq, hneq, hov, hnv, if_true, pure_bind, hpls, hls2]
      rfl
    · have hg' : (edf.hasCol col && ndf.hasCol col) = false := by simpa using hg
      refine ⟨ls2, ?_⟩
      simp only [metricColsLoop, hg', hls2, if_false, Bool.false_eq_true]
      rfl

theorem perStateLines_ok (ndf edf : DF) (nc pc : List String) (na ea : List Value) (st : Value)
    (hst : ∃ s, st = .str s) (hmem_e : st ∈ ea) (hmem_n : st ∈ na)
    (he : ∀ c ∈ nc ++ pc, ∀ vs, edf.get? c = some vs →
      ea.length ≤ vs.length ∧ ∀ v ∈ vs, valIsStr v = false)
    (hn : ∀ c ∈ nc ++ pc, ∀ vs, ndf.get? c = some vs →
      na.length ≤ vs.length ∧ ∀ v ∈ vs, valIsStr v = false) :
    ∃ ls, perStateLines ndf edf nc pc na ea st = .ok ls := by
  obtain ⟨s, rfl⟩ := hst
  have hkey_e : ∃ k ∈ ea, valEq k (Value.str s) = true :=
    ⟨.str s, hmem_e, valEq_str_self s⟩
  have hkey_n : ∃ k ∈ na, valEq k (Value.str s) = true :=
    ⟨.str s, hmem_n, valEq_str_self s⟩
  obtain ⟨sv, hsv⟩ := firstMatch_isSome ea ea (.str s) (Nat.le_refl _) hkey_e
  obtain ⟨av, hav⟩ := firstMatch_isSome na na (.str s) (Nat.le_refl _) hkey_n
  obtain ⟨l1, hl1⟩ := metricColsLoop_ok ndf edf na ea (.str s)
    (fun col o n => numericPairLines sv (firstMatch na na (Value.str s)) col o n)
    (fun col o n ho hn2 => by
      rw [hav]
      exact numericPairLines_ok sv av col o n ho hn2)
    hkey_e hkey_n nc
    (fun c hc => he c (List.mem_append_left pc hc))
    (fun c hc => hn c (List.mem_append_left pc hc))
  obtain ⟨l2, hl2⟩ := metricColsLoop_ok ndf edf na ea (.str s)
    (fun col o n => percentPairLines sv col o n)
    (fun col o n ho hn2 => percentPairLines_ok sv col o n ho hn2)
    hkey_e hkey_n pc
    (fun c hc => he c (List.mem_append_right nc hc))
    (fun c hc => hn c (List.mem_append_right nc hc))
  refine ⟨l1 ++ l2, ?_⟩
  simp only [perStateLines, hsv, pure_bind, hl1, hl2]
  rfl

theorem perStateLoop_ok (ndf edf : DF) (nc pc : List String) (na ea : List Value)
    (he : ∀ c ∈ nc ++ pc, ∀ vs, edf.get? c = some vs →
      ea.length ≤ vs.length ∧ ∀ v ∈ vs, valIsStr v = false)
    (hn : ∀ c ∈ nc ++ pc, ∀ vs, ndf.get? c = some vs →
      na.length ≤ vs.length ∧ ∀ v ∈ vs, valIsStr v = false) :
    ∀ sts : List Value, (∀ st ∈ sts, (∃ s, st = .str s) ∧ st ∈ ea ∧ st ∈ na) →
      ∃ ls, perStateLoop ndf edf nc pc na ea sts = .ok ls
  | [], _ => ⟨[], rfl⟩
  | st :: sts, hsts => by
    obtain ⟨h1, h2, h3⟩ := hsts st (List.mem_cons_self st sts)
    obtain ⟨l1, hl1⟩ := perStateLines_ok ndf edf nc pc na ea st h1 h2 h3 he hn
    obtain ⟨l2, hl2⟩ := perStateLoop_ok ndf edf nc pc na ea he hn sts
      (fun x hx => hsts x (List.mem_cons_of_mem st hx))
    refine ⟨l1 ++ l2, ?_⟩
    simp only [perStateLoop, pure_bind, hl1, hl2]
    rfl

/-- Claim C1 (amended): the claim's safety property fails in general (the
detection phase raises for a state missing from the new dataset, see the
counterexample); what does hold is that on normalized inputs whose metric
columns are aligned with the key column and in which every existing state
identifier also occurs in the new dataset, the detection phase completes
without error. -/
theorem detection_ok_of_states_covered (ndf edf : DF) (nc pc : List String)
    (na ea : List Value)
    (hna : ndf.get? "Abbr" = some na) (hea : edf.get? "Abbr" = some ea)
    (hstr : ∀ v ∈ ea, valIsStr v = true)
    (hcov : ∀ v ∈ ea, v ∈ na)
    (hn : ∀ p ∈ ndf.cols, p.1 ∈ nc ++ pc →
      na.length ≤ p.2.length ∧ ∀ v ∈ p.2, valIsStr v = false)
    (he : ∀ p ∈ edf.cols, p.1 ∈ nc ++ pc →
      ea.length ≤ p.2.length ∧ ∀ v ∈ p.2, valIsStr v = false) :
    ∃ ls, make_output_lines ndf edf nc pc = .ok ls := by
  have he' : ∀ c ∈ nc ++ pc, ∀ vs, edf.get? c = some vs →
      ea.length ≤ vs.length ∧ ∀ v ∈ vs, valIsStr v = false := by
    intro c hc vs hvs
    exact he (c, vs) (lookupCol_mem edf.cols c vs hvs) hc
  have hn' : ∀ c ∈ nc ++ pc, ∀ vs, ndf.get? c = some vs →
      na.length ≤ vs.length ∧ ∀ v ∈ vs, valIsStr v = false := by
    intro c hc vs hvs
    exact hn (c, vs) (lookupCol_mem ndf.cols c vs hvs) hc
  obtain ⟨l5, hl5⟩ := perStateLoop_ok ndf edf nc pc na ea he' hn' ea
    (fun st hst => ⟨(valIsStr_iff st).mp (hstr st hst), hst, hcov st hst⟩)
  refine ⟨["State,Issue,Metric,Details"] ++ stateDroppedLines na ea ++ stateAddedLines na ea ++
    colsAddedLines ndf edf ++ colsRemovedLines ndf edf ++ l5, ?_⟩
  simp only [make_output_lines, hna, hea, pure_bind, hl5]
  rfl

/-- Counterexample for C1 as stated: on a pair of normalized datasets where
the state TX is present in the existing dataset but entirely absent from the
new one, and the numeric-metric column "BI cases" is present in both, the
detection phase raises (Python IndexError at `new_row[col].iloc[0]`) instead
of treating the state's values as missing. -/
theorem detection_raises_on_removed_state_cex :
    make_output_lines dfNewRemoved dfOldRemoved ["BI cases"] [] = .error .indexError := by
  with_unfolding_all decide

/-- Witness for C1 (amended): on a covered normalized pair the detection
phase succeeds. -/
theorem detection_ok_of_states_covered_witness :
    ∃ ls, make_output_lines dfNewCovered dfOldCovered ["BI cases"] [] = .ok ls :=
  detection_ok_of_states_covered dfNewCovered dfOldCovered ["BI cases"] []
    [.str "CA"] [.str "CA"] (by with_unfolding_all decide) (by with_unfolding_all decide)
    (by decide) (by decide) (by decide) (by decide)

/-! Claim C2: idempotence of normalization. -/

theorem updateEntriesE_lookup_other (f : List Value → Except BIError (List Value))
    (c col : String) (hne : c ≠ col) :
    ∀ (l l' : List (String × List Value)), updateEntriesE f c l = .ok l' →
      lookupCol col l' = lookupCol col l
  | [], l', h => by
    have h' : Except.ok ([] : List (String × List Value)) = Except.ok l' := h
    rw [← Except.ok.inj h']
  | p :: ps, l', h => by
    unfold updateEntriesE at h
    cases hv : (if p.1 = c then f p.2 else pure p.2) with
    | error e =>
      rw [hv] at h
      exact Except.noConfusion h
    | ok v =>
      rw [hv] at h
      cases hr : updateEntriesE f c ps with
      | error e =>
        rw [hr] at h
        exact Except.noConfusion h
      | ok rest =>
        rw [hr] at h
        have h' : Except.ok ((p.1, v) :: rest) = Except.ok l' := h
        rw [← Except.ok.inj h']
        by_cases hpc : p.1 = col
        · have hp_ne_c : ¬ p.1 = c := fun h2 => hne (h2.symm.trans hpc)
          rw [if_neg hp_ne_c] at hv
          have hv2 : p.2 = v := Except.ok.inj hv
          simp [lookupCol, hpc, hv2]
        · simp only [lookupCol, hpc, if_false]
          exact updateEntriesE_lookup_other f c col hne ps rest hr

theorem updateEntriesE_lookup_self (f : List Value → Except BIError (List Value)) (col : String) :
    ∀ (l l' : List (String × List Value)) (vs : List Value),
      lookupCol col l = some vs → updateEntriesE f col l = .ok l' →
      ∃ w, f vs = .ok w ∧ lookupCol col l' = some w
  | [], _, _, hvs, _ => Option.noConfusion hvs
  | p :: ps, l', vs, hvs, h => by
    unfold updateEntriesE at h
    cases hv : (if p.1 = col then f p.2 else pure p.2) with
    | error e =>
      rw [hv] at h
      exact Except.noConfusion h
    | ok v =>
      rw [hv] at h
      cases hr : updateEntriesE f col ps with
      | error e =>
        rw [hr] at h
        exact Except.noConfusion h
      | ok rest =>
        rw [hr] at h
        have h' : Except.ok ((p.1, v) :: rest) = Except.ok l' := h
        by_cases hpc : p.1 = col
        · rw [if_pos hpc] at hv
          have hvs2 : p.2 = vs := by
            simpa [lookupCol, hpc] using hvs
          refine ⟨v, by rw [← hvs2]; exact hv, ?_⟩
          rw [← Except.ok.inj h']
          simp [lookupCol, hpc]
        · rw [if_neg hpc] at hv
          have hvs2 : lookupCol col ps = some vs := by
            simpa [lookupCol, hpc] using hvs
          obtain ⟨w, hw1, hw2⟩ := updateEntriesE_lookup_self f col ps rest vs hvs2 hr
          refine ⟨w, hw1, ?_⟩
          rw [← Except.ok.inj h']
          simpa [lookupCol, hpc] using hw2

theorem updateColE_get_other (f : List Value → Except BIError (List Value)) (c col : String)
    (hne : c ≠ col) (df df' : DF) (h : updateColE f c df = .ok df') :
    df'.get? col = df.get? col := by
  unfold updateColE at h
  by_cases hc : df.hasCol c = true
  · simp only [hc, if_true] at h
    cases he : updateEntriesE f c df.cols with
    | error e =>
      rw [he] at h
      exact Except.noConfusion h
    | ok l' =>
      rw [he] at h
      have h' : Except.ok (DF.mk l') = Except.ok df' := h
      rw [← Except.ok.inj h']
      exact updateEntriesE_lookup_other f c col hne df.cols l' he
  · have hc2 : df.hasCol c = false := by simpa using hc
    simp only [hc2, Bool.false_eq_true, if_false] at h
    have h' : Except.ok df = Except.ok df' := h
    rw [← Except.ok.inj h']

theorem updateColE_get_self (f : List Value → Except BIError (List Value)) (col : String)
    (df df' : DF) (vs : List Value) (hvs : df.get? col = some vs)
    (h : updateColE f col df = .ok df') :
    ∃ w, f vs = .ok w ∧ df'.get? col = some w := by
  have hc : df.hasCol col = true :=
    decide_eq_true (List.mem_map.mpr ⟨(col, vs), lookupCol_mem df.cols col vs hvs, rfl⟩)
  unfold updateColE at h
  simp only [hc, if_true] at h
  cases he : updateEntriesE f col df.cols with
  | error e =>
    rw [he] at h
    exact Except.noConfusion h
  | ok l' =>
    rw [he] at h
    have h' : Except.ok (DF.mk l') = Except.ok df' := h
    obtain ⟨w, hw1, hw2⟩ := updateEntriesE_lookup_self f col df.cols l' vs hvs he
    refine ⟨w, hw1, ?_⟩
    rw [← Except.ok.inj h']
    exact hw2

theorem updateEntries_lookup_other (f : List Value → List Value) (c col : String)
    (hne : c ≠ col) :
    ∀ l : List (String × List Value), lookupCol col (updateEntries f c l) = lookupCol col l
  | [] => rfl
  | p :: ps => by
    by_cases hpc : p.1 = col
    · have hp_ne_c : ¬ p.1 = c := fun h2 => hne (h2.symm.trans hpc)
      have hcol_ne_c : ¬ col = c := fun h2 => hne h2.symm
      simp [updateEntries, lookupCol, hpc, hp_ne_c, hcol_ne_c]
    · simp [updateEntries, lookupCol, hpc, updateEntries_lookup_other f c col hne ps]

theorem updateEntries_lookup_self (f : List Value → List Value) (col : String) :
    ∀ (l : List (String × List Value)) (vs : List Value),
      lookupCol col l = some vs → lookupCol col (updateEntries f col l) = some (f vs)
  | [], _, hvs => Option.noConfusion hvs
  | p :: ps, vs, hvs => by
    by_cases hpc : p.1 = col
    · have hv2 : p.2 = vs := by
        simpa [lookupCol, hpc] using hvs
      simp [updateEntries, lookupCol, hpc, hv2]
    · have hvs2 : lookupCol col ps = some vs := by
        simpa [lookupCol, hpc] using hvs
      simp [updateEntries, lookupCol, hpc, updateEntries_lookup_self f col ps vs hvs2]

theorem updateCol_get_other (f : List Value → List Value) (c col : String) (hne : c ≠ col)
    (df : DF) : (updateCol f c df).get? col = df.get? col := by
  unfold updateCol
  by_cases hc : df.hasCol c = true
  · simp only [hc, if_true]
    exact updateEntries_lookup_other f c col hne df.cols
  · have hc2 : df.hasCol c = false := by simpa using hc
    simp only [hc2, Bool.false_eq_true, if_false]

theorem updateCol_get_self (f : List Value → List Value) (col : String) (df : DF)
    (vs : List Value) (hvs : df.get? col = some vs) :
    (updateCol f col df).get? col = some (f vs) := by
  have hc : df.hasCol col = true :=
    decide_eq_true (List.mem_map.mpr ⟨(col, vs), lookupCol_mem df.cols col vs hvs, rfl⟩)
  unfold updateCol
  simp only [hc, if_true]
  exact updateEntries_lookup_self f col df.cols vs hvs

theorem numericNormLoop_fst (col : String) :
    ∀ (cs : List String) (p : DF × DF) (p' : DF × DF) (vs : List Value),
      numericNormLoop cs p = .ok p' → p.1.get? col = some vs → dtypeIsObject vs = false →
      p'.1.get? col = some vs
  | [], p, p', vs, h, hvs, _ => by
    have h' : Except.ok p = Except.ok p' := h
    rw [← Except.ok.inj h']
    exact hvs
  | c :: cs, p, p', vs, h, hvs, hobj => by
    unfold numericNormLoop at h
    cases ha : updateColE normNumericCol c p.1 with
    | error e =>
      rw [ha] at h
      exact Except.noConfusion h
    | ok a =>
      rw [ha] at h
      cases hb : updateColE normNumericCol c p.2 with
      | error e =>
        rw [hb] at h
        exact Except.noConfusion h
      | ok b =>
        rw [hb] at h
        have h' : numericNormLoop cs (a, b) = .ok p' := h
        have hget : a.get? col = some vs := by
          by_cases hc : c = col
          · subst hc
            obtain ⟨w, hw1, hw2⟩ := updateColE_get_self normNumericCol c p.1 a vs hvs ha
            have hid : normNumericCol vs = pure vs := by
              unfold normNumericCol
              simp [hobj]
            rw [hid] at hw1
            rw [← Except.ok.inj hw1] at hw2
            exact hw2
          · rw [updateColE_get_other normNumericCol c col hc p.1 a ha]
            exact hvs
        exact numericNormLoop_fst col cs (a, b) p' vs h' hget hobj

theorem numericNormLoop_snd (col : String) :
    ∀ (cs : List String) (p : DF × DF) (p' : DF × DF) (vs : List Value),
      numericNormLoop cs p = .ok p' → p.2.get? col = some vs → dtypeIsObject vs = false →
      p'.2.get? col = some vs
  | [], p, p', vs, h, hvs, _ => by
    have h' : Except.ok p = Except.ok p' := h
    rw [← Except.ok.inj h']
    exact hvs
  | c :: cs, p, p', vs, h, hvs, hobj => by
    unfold numericNormLoop at h
    cases ha : updateColE normNumericCol c p.1 with
    | error e =>
      rw [ha] at h
      exact Except.noConfusion h
    | ok a =>
      rw [ha] at h
      cases hb : updateColE normNumericCol c p.2 with
      | error e =>
        rw [hb] at h
        exact Except.noConfusion h
      | ok b =>
        rw [hb] at h
        have h' : numericNormLoop cs (a, b) = .ok p' := h
        have hget : b.get? col = some vs := by
          by_cases hc : c = col
          · subst hc
            obtain ⟨w, hw1, hw2⟩ := updateColE_get_self normNumericCol c p.2 b vs hvs hb
            have hid : normNumericCol vs = pure vs := by
              unfold normNumericCol
              simp [hobj]
            rw [hid] at hw1
            rw [← Except.ok.inj hw1] at hw2
            exact hw2
          · rw [updateColE_get_other normNumericCol c col hc p.2 b hb]
            exact hvs
        exact numericNormLoop_snd col cs (a, b) p' vs h' hget hobj

theorem numericNormLoop_fst_other (col : String) :
    ∀ (cs : List String) (p p' : DF × DF), numericNormLoop cs p = .ok p' →
      (∀ c ∈ cs, c ≠ col) → p'.1.get? col = p.1.get? col
  | [], p, p', h, _ => by
    have h' : Except.ok p = Except.ok p' := h
    rw [← Except.ok.inj h']
  | c :: cs, p, p', h, hne => by
    unfold numericNormLoop at h
    cases ha : updateColE normNumericCol c p.1 with
    | error e =>
      rw [ha] at h
      exact Except.noConfusion h
    | ok a =>
      rw [ha] at h
      cases hb : updateColE normNumericCol c p.2 with
      | error e =>
        rw [hb] at h
        exact Except.noConfusion h
      | ok b =>
        rw [hb] at h
        have h' : numericNormLoop cs (a, b) = .ok p' := h
        have ih := numericNormLoop_fst_other col cs (a, b) p' h'
          (fun x hx => hne x (List.mem_cons_of_mem c hx))
        rw [ih]
        exact updateColE_get_other normNumericCol c col (hne c (List.mem_cons_self c cs)) p.1 a ha

theorem numericNormLoop_snd_other (col : String) :
    ∀ (cs : List String) (p p' : DF × DF), numericNormLoop cs p = .ok p' →
      (∀ c ∈ cs, c ≠ col) → p'.2.get? col = p.2.get? col
  | [], p, p', h, _ => by
    have h' : Except.ok p = Except.ok p' := h
    rw [← Except.ok.inj h']
  | c :: cs, p, p', h, hne => by
    unfold numericNormLoop at h
    cases ha : updateColE normNumericCol c p.1 with
    | error e =>
      rw [ha] at h
      exact Except.noConfusion h
    | ok a =>
      rw [ha] at h
      cases hb : updateColE normNumericCol c p.2 with
      | error e =>
        rw [hb] at h
        exact Except.noConfusion h
      | ok b =>
        rw [hb] at h
        have h' : numericNormLoop cs (a, b) = .ok p' := h
        have ih := numericNormLoop_snd_other col cs (a, b) p' h'
          (fun x hx => hne x (List.mem_cons_of_mem c hx))
        rw [ih]
        exact updateColE_get_other normNumericCol c col (hne c (List.mem_cons_self c cs)) p.2 b hb

theorem percentNormLoop_fst_other (col : String) :
    ∀ (cs : List String) (p : DF × DF), (∀ c ∈ cs, c ≠ col) →
      (percentNormLoop cs p).1.get? col = p.1.get? col
  | [], _, _ => rfl
  | c :: cs, p, hne => by
    unfold percentNormLoop
    rw [percentNormLoop_fst_other col cs _ (fun x hx => hne x (List.mem_cons_of_mem c hx))]
    exact updateCol_get_other normPercentCol c col (hne c (List.mem_cons_self c cs)) p.1

theorem percentNormLoop_snd_other (col : String) :
    ∀ (cs : List String) (p : DF × DF), (∀ c ∈ cs, c ≠ col) →
      (percentNormLoop cs p).2.get? col = p.2.get? col
  | [], _, _ => rfl
  | c :: cs, p, hne => by
    unfold percentNormLoop
    rw [percentNormLoop_snd_other col cs _ (fun x hx => hne x (List.mem_cons_of_mem c hx))]
    exact updateCol_get_other normPercentCol c col (hne c (List.mem_cons_self c cs)) p.2

theorem percentNormLoop_fst_self (col : String) :
    ∀ (cs : List String) (p : DF × DF) (vs : List Value), cs.Nodup → col ∈ cs →
      p.1.get? col = some vs →
      (percentNormLoop cs p).1.get? col = some (normPercentCol vs)
  | [], _, _, _, hmem, _ => absurd hmem (List.not_mem_nil col)
  | c :: cs, p, vs, hnd, hmem, hvs => by
    by_cases hc : c = col
    · subst hc
      have hnot : ∀ x ∈ cs, x ≠ c := by
        intro x hx he
        exact (List.nodup_cons.mp hnd).1 (he ▸ hx)
      unfold percentNormLoop
      rw [percentNormLoop_fst_other c cs _ hnot]
      exact updateCol_get_self normPercentCol c p.1 vs hvs
    · have hmem2 : col ∈ cs := by
        rcases List.mem_cons.mp hmem with h1 | h1
        · exact absurd h1.symm hc
        · exact h1
      unfold percentNormLoop
      exact percentNormLoop_fst_self col cs _ vs (List.nodup_cons.mp hnd).2 hmem2
        (by rw [updateCol_get_other normPercentCol c col hc p.1]; exact hvs)

theorem percentNormLoop_snd_self (col : String) :
    ∀ (cs : List String) (p : DF × DF) (vs : List Value), cs.Nodup → col ∈ cs →
      p.2.get? col = some vs →
      (percentNormLoop cs p).2.get? col = some (normPercentCol vs)
  | [], _, _, _, hmem, _ => absurd hmem (List.not_mem_nil col)
  | c :: cs, p, vs, hnd, hmem, hvs => by
    by_cases hc : c = col
    · subst hc
      have hnot : ∀ x ∈ cs, x ≠ c := by
        intro x hx he
        exact (List.nodup_cons.mp hnd).1 (he ▸ hx)
      unfold percentNormLoop
      rw [percentNormLoop_snd_other c cs _ hnot]
      exact updateCol_get_self normPercentCol c p.2 vs hvs
    · have hmem2 : col ∈ cs := by
        rcases List.mem_cons.mp hmem with h1 | h1
        · exact absurd h1.symm hc
        · exact h1
      unfold percentNormLoop
      exact percentNormLoop_snd_self col cs _ vs (List.nodup_cons.mp hnd).2 hmem2
        (by rw [updateCol_get_other normPercentCol c col hc p.2]; exact hvs)

/-- Successful classification runs decompose into the boundary lookups, the
numeric loop and the percent loop. -/
theorem classify_ok_struct (new_df existing_df : DF) (r : DF × DF × List String × List String)
    (h : classify_and_normalize new_df existing_df = .ok r) :
    ∃ i j p,
      listIdx? new_df.colNames first_numeric_colname = some i ∧
      listIdx? new_df.colNames last_numeric_colname = some j ∧
      r.2.2.1 =
        ((new_df.colNames.drop i).take (j + 1 - i)).filter (fun x => !strContainsSub x "percent") ∧
      r.2.2.2 =
        ((new_df.colNames.drop i).take (j + 1 - i)).filter (fun x => strContainsSub x "percent") ∧
      numericNormLoop r.2.2.1 (new_df, existing_df) = .ok p ∧
      r.1 = (percentNormLoop r.2.2.2 p).1 ∧ r.2.1 = (percentNormLoop r.2.2.2 p).2 := by
  unfold classify_and_normalize at h
  cases hi : listIdx? new_df.colNames first_numeric_colname with
  | none =>
    rw [hi] at h
    exact Except.noConfusion h
  | some i =>
    rw [hi] at h
    cases hj : listIdx? new_df.colNames last_numeric_colname with
    | none =>
      rw [hj] at h
      exact Except.noConfusion h
    | some j =>
      rw [hj] at h
      have h2 : Bind.bind (numericNormLoop
          (((new_df.colNames.drop i).take (j + 1 - i)).filter
            (fun x => !strContainsSub x "percent")) (new_df, existing_df))
          (fun p => (pure ((percentNormLoop
            (((new_df.colNames.drop i).take (j + 1 - i)).filter
              (fun x => strContainsSub x "percent")) p).1,
            (percentNormLoop
              (((new_df.colNames.drop i).take (j + 1 - i)).filter
                (fun x => strContainsSub x "percent")) p).2,
            ((new_df.colNames.drop i).take (j + 1 - i)).filter
              (fun x => !strContainsSub x "percent"),
            ((new_df.colNames.drop i).take (j + 1 - i)).filter
              (fun x => strContainsSub x "percent")) :
              Except BIError (DF × DF × List String × List String))) = Except.ok r := h
      cases hp : numericNormLoop
          (((new_df.colNames.drop i).take (j + 1 - i)).filter
            (fun x => !strContainsSub x "percent")) (new_df, existing_df) with
      | error e =>
        rw [hp] at h2
        exact Except.noConfusion h2
      | ok p =>
        rw [hp] at h2
        have h3 := Except.ok.inj h2
        subst h3
        exact ⟨i, j, p, rfl, rfl, rfl, rfl, hp, rfl, rfl⟩

/-- Claim C2 (amended): normalization is a no-op only for the numeric-metric
columns — for a numeric-metric column already numeric (no string-typed cell)
in either dataset, classification-and-normalization leaves that column's
values unchanged; a percent-metric column, however, is re-converted
unconditionally, every cell passing through `p2f` again (which maps
already-numeric cells to missing — see the counterexample), so normalization
is NOT idempotent on percent columns. -/
theorem numeric_normalization_noop (new_df existing_df ndf edf : DF)
    (nc pc : List String) (col : String)
    (h : classify_and_normalize new_df existing_df = .ok (ndf, edf, nc, pc)) :
    (col ∈ nc →
      (∀ vs, new_df.get? col = some vs → dtypeIsObject vs = false →
        ndf.get? col = some vs) ∧
      (∀ vs, existing_df.get? col = some vs → dtypeIsObject vs = false →
        edf.get? col = some vs)) ∧
    (col ∈ pc → new_df.colNames.Nodup →
      (∀ vs, new_df.get? col = some vs → dtypeIsObject vs = false →
        ndf.get? col = some (vs.map p2f)) ∧
      (∀ vs, existing_df.get? col = some vs → dtypeIsObject vs = false →
        edf.get? col = some (vs.map p2f))) := by
  obtain ⟨i, j, p, hi, hj, hnc, hpc, hloop, hndf, hedf⟩ :=
    classify_ok_struct new_df existing_df (ndf, edf, nc, pc) h
  simp only at hnc hpc hloop hndf hedf
  constructor
  · intro hmem
    have hcolper : strContainsSub col "percent" = false := by
      have := (List.mem_filter.mp (hnc ▸ hmem)).2
      simpa using this
    have hdisj : ∀ c ∈ pc, c ≠ col := by
      intro c hc he
      have := (List.mem_filter.mp (hpc ▸ hc)).2
      rw [he, hcolper] at this
      exact Bool.false_ne_true this
    constructor
    · intro vs hvs hobj
      have h1 : p.1.get? col = some vs := numericNormLoop_fst col nc (new_df, existing_df) p vs
        (hnc ▸ hloop) hvs hobj
      rw [hndf, percentNormLoop_fst_other col pc p hdisj]
      exact h1
    · intro vs hvs hobj
      have h1 : p.2.get? col = some vs := numericNormLoop_snd col nc (new_df, existing_df) p vs
        (hnc ▸ hloop) hvs hobj
      rw [hedf, percentNormLoop_snd_other col pc p hdisj]
      exact h1
  · intro hmem hnd
    have hcolper : strContainsSub col "percent" = true := by
      have := (List.mem_filter.mp (hpc ▸ hmem)).2
      simpa using this
    have hdisj : ∀ c ∈ nc, c ≠ col := by
      intro c hc he
      have := (List.mem_filter.mp (hnc ▸ hc)).2
      rw [he, hcolper] at this
      simp at this
    have hpcnd : pc.Nodup := by
      rw [hpc]
      refine List.Nodup.filter _ ?_
      exact ((List.take_sublist _ _).trans (List.drop_sublist _ _)).nodup hnd
    constructor
    · intro vs hvs hobj
      have h1 : p.1.get? col = new_df.get? col :=
        numericNormLoop_fst_other col nc (new_df, existing_df) p (hnc ▸ hloop) hdisj
      have h2 : (percentNormLoop pc p).1.get? col = some (normPercentCol vs) :=
        percentNormLoop_fst_self col pc p vs hpcnd hmem (h1.trans hvs)
      rw [hndf, h2]
      unfold normPercentCol
      rw [hobj]
      simp
    · intro vs hvs hobj
      have h1 : p.2.get? col = existing_df.get? col :=
        numericNormLoop_snd_other col nc (new_df, existing_df) p (hnc ▸ hloop) hdisj
      have h2 : (percentNormLoop pc p).2.get? col = some (normPercentCol vs) :=
        percentNormLoop_snd_self col pc p vs hpcnd hmem (h1.trans hvs)
      rw [hedf, h2]
      unfold normPercentCol
      rw [hobj]
      simp

/-- Counterexample for C2 as stated: on the fully numeric (already
normalized) dataset `dfNormalized`, running classification-and-normalization
is not a no-op: the percent-metric column "b percent", already holding a
numeric 0.45, comes back all-missing, so normalizing an already-normalized
dataset changes it. -/
theorem normalization_not_idempotent_cex :
    classify_and_normalize dfNormalized dfNormalized =
      .ok (dfNormalizedOut, dfNormalizedOut,
        ["BI cases", "Total Individuals not fully vaccinated"], ["b percent"]) ∧
    dfNormalizedOut ≠ dfNormalized ∧
    classify_and_normalize dfNormalized dfNormalized ≠
      .ok (dfNormalized, dfNormalized,
        ["BI cases", "Total Individuals not fully vaccinated"], ["b percent"]) ∧
    dfNormalized.get? "b percent" = some [.num (9 / 20)] ∧
    dfNormalizedOut.get? "b percent" = some [.missing] := by
  with_unfolding_all decide

/-- Witness for C2 (amended): on `dfNormalized`, the already-numeric
numeric-metric column "BI cases" is returned unchanged, while the
already-numeric percent-metric column "b percent" is mapped cell-wise through
p2f. -/
theorem numeric_normalization_noop_witness :
    dfNormalizedOut.get? "BI cases" = some [.num 5] ∧
    dfNormalizedOut.get? "b percent" = some ([Value.num (9 / 20)].map p2f) := by
  have h1 := numeric_normalization_noop dfNormalized dfNormalized dfNormalizedOut dfNormalizedOut
    ["BI cases", "Total Individuals not fully vaccinated"] ["b percent"] "BI cases"
    (by with_unfolding_all decide)
  have h2 := numeric_normalization_noop dfNormalized dfNormalized dfNormalizedOut dfNormalizedOut
    ["BI cases", "Total Individuals not fully vaccinated"] ["b percent"] "b percent"
    (by with_unfolding_all decide)
  constructor
  · exact (h1.1 (by decide)).1 [.num 5] (by with_unfolding_all decide) (by decide)
  · exact (h2.2 (by decide) (by decide)).1 [.num (9 / 20)] (by with_unfolding_all decide)
      (by decide)

end BIChecks
